import Mathlib

/-!
Verification of the PortAudio output stage
(src/src/squeezeplay/src/audio/decode/decode_portaudio.c).

The render callback, the stream-finished notifier and the stream lifecycle
functions are embedded as pure functions over an explicit shared-state
record.  Byte buffers are functions from byte offsets to sample values: one
32-bit sample occupies 4 bytes, so sample values live at offsets that are
multiples of 4 and a stereo frame occupies 8 bytes.  Helpers that the file
uses but that are declared outside it (fifo, fixed_math, mqueue, the macros
of decode_priv.h) are modelled from the spec and say so in their doc comment.
-/

/-- Modelled from the spec: frames convert to bytes as stereo pairs of 4-byte
samples (the SAMPLES_TO_BYTES macro of decode_priv.h, which is not under
src/). -/
def SAMPLES_TO_BYTES (n : Nat) : Nat := 8 * n

/-- Modelled from the spec: the inverse conversion (the BYTES_TO_SAMPLES
macro of decode_priv.h, which is not under src/). -/
def BYTES_TO_SAMPLES (n : Nat) : Nat := n / 8

/-- Modelled from the spec: the single fixed-point multiply rule applied to
every sample (fixed_mul of audio/fixed_math.h, which is not under src/).
Only the fact that every copied sample goes through this one function
matters to the claims, not the rounding rule itself. -/
def fixed_mul (g s : Int) : Int := g * s / 65536

/-- Modelled from the spec: the ring buffer indices (audio/fifo.h is not
under src/): capacity in bytes, read and write byte indices, all index
arithmetic modulo the capacity. -/
structure Fifo where
  rptr : Nat
  wptr : Nat
  size : Nat
deriving DecidableEq

/-- Modelled from the spec: bytes buffered between the read index and the
write index. -/
def fifo_bytes_used (f : Fifo) : Nat :=
  if f.rptr ≤ f.wptr then f.wptr - f.rptr else f.size - (f.rptr - f.wptr)

/-- Modelled from the spec: contiguous bytes from the read index up to the
wrap boundary. -/
def fifo_bytes_until_rptr_wrap (f : Fifo) : Nat := f.size - f.rptr

/-- Modelled from the spec: advance the read index, wrapping modulo the
capacity. -/
def fifo_rptr_incby (f : Fifo) (n : Nat) : Fifo :=
  { f with rptr := if f.size ≤ f.rptr + n then f.rptr + n - f.size else f.rptr + n }

/-- Modelled from the spec: a freshly initialised ring buffer (fifo_init). -/
def fifo_init (size : Nat) : Fifo := { rptr := 0, wptr := 0, size := size }

/-- The shared audio state fields the file touches.  `running` and
`underrun` model the DECODE_STATE_RUNNING and DECODE_STATE_UNDERRUN bits of
decode_audio->state; the field types are modelled from the spec
(decode_priv.h is not under src/). -/
structure DecodeAudio where
  running : Bool
  underrun : Bool
  lgain : Int
  rgain : Int
  add_silence_ms : Nat
  skip_ahead_bytes : Nat
  elapsed_samples : Nat
  track_sample_rate : Nat
  set_sample_rate : Nat
  max_rate : Nat
  fifo : Fifo
deriving DecidableEq

/-- Observable actions of the embedded code, in program order: taking and
releasing the shared audio lock, invoking the effects mixer over a byte
length, and the PortAudio stream calls of the lifecycle functions. -/
inductive Ev where
  | lock
  | unlock
  | mix (bytes : Nat)
  | paClose
  | paOpen (rate : Nat)
  | paStart
deriving DecidableEq

/-- PortAudio callback return status. -/
inductive PaRet where
  | paContinue
  | paComplete
  | paAbort
deriving DecidableEq

/-- Result of one render-callback invocation: the shared state afterwards,
the output buffer as written before the effects mixer runs, the ordered
observable actions, and the return status. -/
structure CbOut where
  audio : DecodeAudio
  out : Nat → Int
  events : List Ev
  ret : PaRet

/-- memset(out + pos, 0, n): zero the byte range [pos, pos + n). -/
def memset0 (out : Nat → Int) (pos n : Nat) : Nat → Int :=
  fun b => if pos ≤ b ∧ b < pos + n then 0 else out b

/-- One iteration of the inner copy loop of `callback` (lines 144-145): the
left sample of the frame at byte offset `rptr` is scaled by the left gain
into output byte offset `outPos`, the right sample by the right gain into
`outPos + 4`. -/
def writeFrame (buf : Nat → Int) (lg rg : Int) (out : Nat → Int)
    (outPos rptr : Nat) : Nat → Int :=
  fun b =>
    if b = outPos then fixed_mul lg (buf rptr)
    else if b = outPos + 4 then fixed_mul rg (buf (rptr + 4))
    else out b

/-- The inner copy loop of `callback` (lines 143-146): per stereo frame the
left sample is scaled by the left gain and the right sample by the right
gain.  `outPos` and `rptr` are byte offsets; one sample occupies 4 bytes,
one frame 8. -/
def writeFrames (buf : Nat → Int) (lg rg : Int) :
    (Nat → Int) → Nat → Nat → Nat → Nat → Int
  | out, _, _, 0 => out
  | out, outPos, rptr, n + 1 =>
    writeFrames buf lg rg (writeFrame buf lg rg out outPos rptr)
      (outPos + 8) (rptr + 8) n

/-- The outer copy loop of `callback` (lines 128-153).  The C loop runs
until bytes_used reaches 0; each iteration consumes at least one byte
whenever the read index is inside the buffer, so fuel `bytes_used` drives
the recursion.  Returns the output buffer, the ring buffer and the
elapsed-samples counter. -/
def copyLoop (buf : Nat → Int) (lg rg : Int) :
    Nat → (Nat → Int) → Nat → Fifo → Nat → Nat → (Nat → Int) × Fifo × Nat
  | 0, out, _, f, elapsed, _ => (out, f, elapsed)
  | fuel + 1, out, outPos, f, elapsed, bytes_used =>
    if bytes_used = 0 then (out, f, elapsed)
    else
      let wrap := fifo_bytes_until_rptr_wrap f
      let bytes_write := if wrap < bytes_used then wrap else bytes_used
      copyLoop buf lg rg fuel
        (writeFrames buf lg rg out outPos f.rptr (BYTES_TO_SAMPLES bytes_write))
        (outPos + bytes_write) (fifo_rptr_incby f bytes_write)
        (elapsed + BYTES_TO_SAMPLES bytes_write) (bytes_used - bytes_write)

/-- The skip computation of `callback` (lines 82-87): a skip amount is
computed only when the buffer holds at least the remaining request and a
skip-ahead is pending, and is capped by the pending skip-ahead counter. -/
def computeSkip (bytes_used len skip_ahead : Nat) : Nat :=
  if len ≤ bytes_used ∧ 0 < skip_ahead then
    let sk := bytes_used - len
    if skip_ahead < sk then skip_ahead else sk
  else 0

/-- The skip execution of `callback` (lines 109-126): advance the read index
by skip_bytes as up to two segments around the wrap, decrementing the
skip-ahead counter and incrementing the elapsed-samples counter per
segment.  Returns the ring buffer, skip-ahead counter and elapsed counter. -/
def doSkip (f : Fifo) (sab elapsed skip_bytes : Nat) : Fifo × Nat × Nat :=
  if skip_bytes = 0 then (f, sab, elapsed)
  else if fifo_bytes_until_rptr_wrap f < skip_bytes then
    (fifo_rptr_incby (fifo_rptr_incby f (fifo_bytes_until_rptr_wrap f))
        (skip_bytes - fifo_bytes_until_rptr_wrap f),
      sab - fifo_bytes_until_rptr_wrap f - (skip_bytes - fifo_bytes_until_rptr_wrap f),
      elapsed + BYTES_TO_SAMPLES (fifo_bytes_until_rptr_wrap f)
        + BYTES_TO_SAMPLES (skip_bytes - fifo_bytes_until_rptr_wrap f))
  else
    (fifo_rptr_incby f skip_bytes, sab - skip_bytes,
      elapsed + BYTES_TO_SAMPLES skip_bytes)

/-- The silence countdown `callback` computes into its local copy of
add_silence_ms (lines 71-73): decrement by the consumed duration, snapping
to zero below the 2 ms threshold.  The source computes this into a local
variable and never stores it back to the shared state. -/
def silenceRemaining (add_silence_ms rate add_bytes : Nat) : Nat :=
  let r := add_silence_ms - BYTES_TO_SAMPLES add_bytes * 1000 / rate
  if r < 2 then 0 else r

/-- Lines 79-158 of `callback`: read bytes_used, compute the skip, clamp to
the remaining length, handle underrun, execute the skip, run the copy loop
and record a pending sample-rate change.  `out1` is the output after the
silence prefix, `outPos` the output byte cursor, `len1` the remaining byte
length and `lenFull` the full requested byte length. -/
def callbackMain (buf : Nat → Int) (rate : Nat) (reached_start_point : Bool)
    (out1 : Nat → Int) (outPos len1 lenFull : Nat) (a : DecodeAudio) : CbOut :=
  let bytes_used0 := fifo_bytes_used a.fifo
  let skip_bytes := computeSkip bytes_used0 len1 a.skip_ahead_bytes
  let bytes_used := if len1 < bytes_used0 then len1 else bytes_used0
  if bytes_used = 0 then
    { audio := { a with underrun := true },
      out := memset0 out1 outPos len1,
      events := [Ev.lock, Ev.unlock, Ev.mix lenFull],
      ret := PaRet.paContinue }
  else
    let a1 := { a with underrun := if bytes_used < len1 then true else false }
    let out2 := if bytes_used < len1 then
        memset0 out1 (outPos + bytes_used) (len1 - bytes_used)
      else out1
    let s := doSkip a1.fifo a1.skip_ahead_bytes a1.elapsed_samples skip_bytes
    let c := copyLoop buf a1.lgain a1.rgain bytes_used out2 outPos s.1 s.2.2 bytes_used
    let a2 := { a1 with fifo := c.2.1, skip_ahead_bytes := s.2.1,
                        elapsed_samples := c.2.2 }
    let a3 := { a2 with set_sample_rate :=
        if reached_start_point = true ∧ a2.track_sample_rate ≠ rate then
          a2.track_sample_rate
        else a2.set_sample_rate }
    { audio := a3, out := c.1,
      events := [Ev.lock, Ev.unlock, Ev.mix lenFull],
      ret := PaRet.paContinue }

/-- Line 66-67 of `callback`: the silence byte count for the pending silence
duration at the stream rate, clamped to the remaining output length. -/
def clampedSilenceBytes (ms rate lenFull : Nat) : Nat :=
  if lenFull < SAMPLES_TO_BYTES (ms * rate / 1000) then lenFull
  else SAMPLES_TO_BYTES (ms * rate / 1000)

/-- Lines 64-77 of `callback`: insert the pending transition silence at the
head of the output, then fall through to the main body.  The decremented
silence countdown (`silenceRemaining`) stays in a local of the source and is
never written back to the shared state, so `a` is passed on unchanged. -/
def callbackRunning (buf : Nat → Int) (rate : Nat) (reached_start_point : Bool)
    (out0 : Nat → Int) (lenFull : Nat) (a : DecodeAudio) : CbOut :=
  if a.add_silence_ms ≠ 0 then
    if lenFull - clampedSilenceBytes a.add_silence_ms rate lenFull = 0 then
      { audio := a, out := memset0 out0 0 (clampedSilenceBytes a.add_silence_ms rate lenFull),
        events := [Ev.lock, Ev.unlock, Ev.mix lenFull],
        ret := PaRet.paContinue }
    else
      callbackMain buf rate reached_start_point
        (memset0 out0 0 (clampedSilenceBytes a.add_silence_ms rate lenFull))
        (clampedSilenceBytes a.add_silence_ms rate lenFull)
        (lenFull - clampedSilenceBytes a.add_silence_ms rate lenFull) lenFull a
  else
    callbackMain buf rate reached_start_point out0 0 lenFull lenFull a

/-- The render callback (lines 35-168).  `framesPerBuffer` is the requested
frame count, `buf` the ring-buffer contents by byte offset, `rate` the
stream sample rate, `reached_start_point` the value returned by
decode_check_start_point() (decode.c is not under src/), `out0` the output
buffer before the call and `a` the shared state.  `statusFlags` is only
logged by the source.  On the not-running path the source jumps straight to
the mixin_effects label, past the unlock at the unlock_mixin_effects
label. -/
def callback (framesPerBuffer statusFlags : Nat) (buf : Nat → Int) (rate : Nat)
    (reached_start_point : Bool) (out0 : Nat → Int) (a : DecodeAudio) : CbOut :=
  let len := SAMPLES_TO_BYTES framesPerBuffer
  if a.running = false then
    { audio := a, out := memset0 out0 0 len,
      events := [Ev.lock, Ev.mix len],
      ret := PaRet.paContinue }
  else
    callbackRunning buf rate reached_start_point out0 len a

/-- Modelled from the spec: the reconfiguration request the stream-finished
notifier queues for the decoder thread (the payload handed to
mqueue_write_request). -/
inductive Req where
  | reopenStream
deriving DecidableEq

/-- Modelled from the spec: the single-slot non-blocking reconfiguration
channel (audio/mqueue.h is not under src/): try-enqueue fails immediately
when a request is already pending. -/
structure MQueue where
  slot : Option Req
deriving DecidableEq

/-- Modelled from the spec: try_enqueue on the single-slot channel.  Returns
the channel afterwards and whether the request was accepted. -/
def mqueue_write_request (q : MQueue) (r : Req) : MQueue × Bool :=
  match q.slot with
  | some _ => (q, false)
  | none => ({ slot := some r }, true)

/-- The stream-finished notifier (lines 182-194): when a sample-rate change
is pending, try to queue a reopen request for the decoder thread; a full
queue drops the request (only logged).  Returns the channel afterwards and
whether a request was enqueued. -/
def finished (q : MQueue) (a : DecodeAudio) : MQueue × Bool :=
  if a.set_sample_rate ≠ 0 then mqueue_write_request q Req.reopenStream
  else (q, false)

/-- The stream-lifecycle state: the shared audio state, whether a PortAudio
stream is currently open, and the recorded stream_sample_rate. -/
structure AudioSys where
  audio : DecodeAudio
  stream : Bool
  stream_sample_rate : Nat

/-- decode_portaudio_openstream (lines 224-265): close any open stream, read
and reset the pending target rate under the lock, open a new stream at
exactly the value read and record it as the current stream rate, then start
the stream. -/
def decode_portaudio_openstream (s : AudioSys) : AudioSys × List Ev :=
  let closeEvs := if s.stream then [Ev.paClose] else []
  let rate := s.audio.set_sample_rate
  ({ audio := { s.audio with set_sample_rate := 0 },
     stream := true, stream_sample_rate := rate },
    closeEvs ++ [Ev.lock, Ev.unlock, Ev.paOpen rate, Ev.paStart])

/-- decode_portaudio_start (lines 197-203): open the stream at the pending
target rate. -/
def decode_portaudio_start (s : AudioSys) : AudioSys × List Ev :=
  decode_portaudio_openstream s

/-- decode_portaudio_stop (lines 213-221): reset the target rate to 44100
and reopen. -/
def decode_portaudio_stop (s : AudioSys) : AudioSys × List Ev :=
  decode_portaudio_openstream
    { s with audio := { s.audio with set_sample_rate := 44100 } }

/-- Modelled from the spec: the fixed ring-buffer capacity DECODE_FIFO_SIZE
(decode.h is not under src/); only positivity and 8-divisibility matter
here. -/
def DECODE_FIFO_SIZE : Nat := 3528000

/-- decode_portaudio_init (lines 311-327), from the allocation on: the
freshly allocated state keeps unspecified contents `a0` except for the
fields the source sets, then the stream is opened. -/
def decode_portaudio_init (a0 : DecodeAudio) : AudioSys × List Ev :=
  let a := { a0 with max_rate := 48000, set_sample_rate := 44100,
                     fifo := fifo_init DECODE_FIFO_SIZE }
  decode_portaudio_openstream { audio := a, stream := false, stream_sample_rate := 0 }

/-- finished_handler (lines 171-175): the decoder thread marks the queued
request consumed and reopens the stream. -/
def finished_handler (q : MQueue) (s : AudioSys) : MQueue × AudioSys × List Ev :=
  let r := decode_portaudio_openstream s
  ({ slot := none }, r.1, r.2)

/-! ### Basic facts about the ring-buffer primitives -/

lemma fifo_rptr_incby_rptr (f : Fifo) (n : Nat) :
    (fifo_rptr_incby f n).rptr =
      if f.size ≤ f.rptr + n then f.rptr + n - f.size else f.rptr + n := rfl

lemma fifo_rptr_incby_wptr (f : Fifo) (n : Nat) :
    (fifo_rptr_incby f n).wptr = f.wptr := rfl

lemma fifo_rptr_incby_size (f : Fifo) (n : Nat) :
    (fifo_rptr_incby f n).size = f.size := rfl

/-- Advancing by at most one capacity is addition modulo the capacity. -/
lemma fifo_rptr_incby_rptr_mod (f : Fifo) (n : Nat)
    (h1 : f.rptr < f.size) (h2 : n ≤ f.size) :
    (fifo_rptr_incby f n).rptr = (f.rptr + n) % f.size := by
  rw [fifo_rptr_incby_rptr]
  by_cases h : f.size ≤ f.rptr + n
  · rw [if_pos h, Nat.mod_eq_sub_mod h, Nat.mod_eq_of_lt (by omega)]
  · rw [if_neg h, Nat.mod_eq_of_lt (by omega)]

lemma fifo_bytes_used_le (f : Fifo) (hw : f.wptr < f.size) :
    fifo_bytes_used f ≤ f.size := by
  unfold fifo_bytes_used
  split <;> omega

lemma fifo_bytes_used_dvd (f : Fifo) (h8r : 8 ∣ f.rptr) (h8w : 8 ∣ f.wptr)
    (h8s : 8 ∣ f.size) : 8 ∣ fifo_bytes_used f := by
  unfold fifo_bytes_used
  split <;> omega

/-! ### The inner copy loop -/

lemma writeFrame_at0 (buf : Nat → Int) (lg rg : Int) (out : Nat → Int)
    (outPos rptr : Nat) :
    writeFrame buf lg rg out outPos rptr outPos = fixed_mul lg (buf rptr) := by
  simp [writeFrame]

lemma writeFrame_at4 (buf : Nat → Int) (lg rg : Int) (out : Nat → Int)
    (outPos rptr : Nat) :
    writeFrame buf lg rg out outPos rptr (outPos + 4) = fixed_mul rg (buf (rptr + 4)) := by
  simp [writeFrame]

lemma writeFrame_other (buf : Nat → Int) (lg rg : Int) (out : Nat → Int)
    (outPos rptr b : Nat) (hb0 : b ≠ outPos) (hb4 : b ≠ outPos + 4) :
    writeFrame buf lg rg out outPos rptr b = out b := by
  simp [writeFrame, hb0, hb4]

/-- Pointwise description of `writeFrames`: inside the written range the
left samples carry the left gain and the right samples the right gain, and
nothing outside the range (or between the sample slots) changes. -/
lemma writeFrames_spec (buf : Nat → Int) (lg rg : Int) :
    ∀ (n : Nat) (out : Nat → Int) (outPos rptr : Nat),
      (∀ b, b < outPos ∨ outPos + 8 * n ≤ b →
        writeFrames buf lg rg out outPos rptr n b = out b) ∧
      (∀ o, o < 8 * n →
        writeFrames buf lg rg out outPos rptr n (outPos + o) =
          (if o % 8 = 0 then fixed_mul lg (buf (rptr + o))
           else if o % 8 = 4 then fixed_mul rg (buf (rptr + o))
           else out (outPos + o))) := by
  intro n
  induction n with
  | zero =>
    intro out outPos rptr
    refine ⟨fun b _ => rfl, fun o ho => by omega⟩
  | succ n ih =>
    intro out outPos rptr
    obtain ⟨ih1, ih2⟩ := ih (writeFrame buf lg rg out outPos rptr) (outPos + 8) (rptr + 8)
    constructor
    · intro b hb
      show writeFrames buf lg rg (writeFrame buf lg rg out outPos rptr)
          (outPos + 8) (rptr + 8) n b = out b
      rw [ih1 b (by omega)]
      exact writeFrame_other buf lg rg out outPos rptr b (by omega) (by omega)
    · intro o ho
      show writeFrames buf lg rg (writeFrame buf lg rg out outPos rptr)
          (outPos + 8) (rptr + 8) n (outPos + o) = _
      rcases Nat.lt_or_ge o 8 with h8 | h8
      · rw [ih1 (outPos + o) (by omega)]
        by_cases h0 : o = 0
        · subst h0
          rw [show outPos + 0 = outPos by omega, writeFrame_at0]
          norm_num
        · by_cases h4 : o = 4
          · subst h4
            rw [writeFrame_at4]
            norm_num
          · rw [writeFrame_other buf lg rg out outPos rptr (outPos + o)
              (by omega) (by omega)]
            rw [Nat.mod_eq_of_lt h8, if_neg h0, if_neg h4]
      · rw [show outPos + o = outPos + 8 + (o - 8) by omega, ih2 (o - 8) (by omega)]
        rw [show rptr + 8 + (o - 8) = rptr + o by omega]
        rw [show (o - 8) % 8 = o % 8 by omega]
        by_cases h0 : o % 8 = 0
        · rw [if_pos h0, if_pos h0]
        · by_cases h4 : o % 8 = 4
          · rw [if_neg h0, if_neg h0, if_pos h4, if_pos h4]
          · rw [if_neg h0, if_neg h0, if_neg h4, if_neg h4]
            rw [writeFrame_other buf lg rg out outPos rptr (outPos + 8 + (o - 8))
              (by omega) (by omega)]

/-! ### The outer copy loop -/

lemma copyLoop_zeroU (buf : Nat → Int) (lg rg : Int) (fuel : Nat) (out : Nat → Int)
    (outPos : Nat) (f : Fifo) (elapsed : Nat) :
    copyLoop buf lg rg fuel out outPos f elapsed 0 = (out, f, elapsed) := by
  cases fuel <;> rfl

lemma copyLoop_succ (buf : Nat → Int) (lg rg : Int) (fuel : Nat) (out : Nat → Int)
    (outPos : Nat) (f : Fifo) (elapsed U bw : Nat) (hU : U ≠ 0)
    (hbw : bw = if fifo_bytes_until_rptr_wrap f < U then fifo_bytes_until_rptr_wrap f else U) :
    copyLoop buf lg rg (fuel + 1) out outPos f elapsed U =
      copyLoop buf lg rg fuel
        (writeFrames buf lg rg out outPos f.rptr (BYTES_TO_SAMPLES bw))
        (outPos + bw) (fifo_rptr_incby f bw)
        (elapsed + BYTES_TO_SAMPLES bw) (U - bw) := by
  subst hbw
  rw [copyLoop, if_neg hU]

/-- End-to-end description of the outer copy loop with fuel `U`, under the
frame-alignment invariants: the output range [outPos, outPos + U) receives
the gain-scaled samples read from the ring buffer modulo its capacity, the
read index advances by `U` modulo the capacity, and the elapsed counter
advances by `U / 8` frames; nothing else changes. -/
lemma copyLoop_spec (buf : Nat → Int) (lg rg : Int) :
    ∀ (fuel U : Nat) (out : Nat → Int) (outPos : Nat) (f : Fifo) (elapsed : Nat),
      U ≤ fuel → f.rptr < f.size → 8 ∣ f.rptr → 8 ∣ f.size → 8 ∣ U → U ≤ f.size →
      ((∀ b, b < outPos ∨ outPos + U ≤ b →
          (copyLoop buf lg rg fuel out outPos f elapsed U).1 b = out b) ∧
       (∀ o, o < U →
          (copyLoop buf lg rg fuel out outPos f elapsed U).1 (outPos + o) =
            (if o % 8 = 0 then fixed_mul lg (buf ((f.rptr + o) % f.size))
             else if o % 8 = 4 then fixed_mul rg (buf ((f.rptr + o) % f.size))
             else out (outPos + o))) ∧
       (copyLoop buf lg rg fuel out outPos f elapsed U).2.1.rptr = (f.rptr + U) % f.size ∧
       (copyLoop buf lg rg fuel out outPos f elapsed U).2.1.wptr = f.wptr ∧
       (copyLoop buf lg rg fuel out outPos f elapsed U).2.1.size = f.size ∧
       (copyLoop buf lg rg fuel out outPos f elapsed U).2.2 = elapsed + U / 8) := by
  intro fuel
  induction fuel with
  | zero =>
    intro U out outPos f elapsed hUf h1 h2 h3 h4 h5
    have hU0 : U = 0 := by omega
    subst hU0
    rw [copyLoop_zeroU]
    exact ⟨fun b _ => rfl, fun o ho => by omega,
      by rw [Nat.add_zero, Nat.mod_eq_of_lt h1], rfl, rfl, by simp⟩
  | succ fuel ih =>
    intro U out outPos f elapsed hUf h1 h2 h3 h4 h5
    by_cases hU : U = 0
    · subst hU
      rw [copyLoop_zeroU]
      exact ⟨fun b _ => rfl, fun o ho => by omega,
        by rw [Nat.add_zero, Nat.mod_eq_of_lt h1], rfl, rfl, by simp⟩
    · have hsize : 0 < f.size := by omega
      have hwrapEq : fifo_bytes_until_rptr_wrap f = f.size - f.rptr := rfl
      have hwrap8 : 8 ∣ fifo_bytes_until_rptr_wrap f := by
        rw [hwrapEq]; exact Nat.dvd_sub' h3 h2
      obtain ⟨bw, hbw⟩ : ∃ bw, bw =
          if fifo_bytes_until_rptr_wrap f < U then fifo_bytes_until_rptr_wrap f else U :=
        ⟨_, rfl⟩
      have hbw8 : 8 ∣ bw := by
        rw [hbw]
        split
        · exact hwrap8
        · exact h4
      have hbwle : bw ≤ fifo_bytes_until_rptr_wrap f := by rw [hbw]; split <;> omega
      have hbwleU : bw ≤ U := by rw [hbw]; split <;> omega
      have hbwpos : 0 < bw := by rw [hbw]; split <;> omega
      have h8bw : 8 * BYTES_TO_SAMPLES bw = bw := by
        simp only [BYTES_TO_SAMPLES]; omega
      rw [copyLoop_succ buf lg rg fuel out outPos f elapsed U bw hU hbw]
      have hf2r : (fifo_rptr_incby f bw).rptr = (f.rptr + bw) % f.size :=
        fifo_rptr_incby_rptr_mod f bw h1 (by omega)
      have hf2rlt : (fifo_rptr_incby f bw).rptr < f.size := by
        rw [hf2r]; exact Nat.mod_lt _ hsize
      have hf2r8 : 8 ∣ (fifo_rptr_incby f bw).rptr := by
        rw [hf2r]; exact (Nat.dvd_mod_iff h3).mpr (Nat.dvd_add h2 hbw8)
      obtain ⟨ihU, ihI, ihR, ihW, ihS, ihE⟩ :=
        ih (U - bw) (writeFrames buf lg rg out outPos f.rptr (BYTES_TO_SAMPLES bw))
          (outPos + bw) (fifo_rptr_incby f bw) (elapsed + BYTES_TO_SAMPLES bw)
          (by omega) hf2rlt hf2r8 h3 (Nat.dvd_sub' h4 hbw8)
          (by rw [fifo_rptr_incby_size]; omega)
      obtain ⟨wf1, wf2⟩ := writeFrames_spec buf lg rg (BYTES_TO_SAMPLES bw) out outPos f.rptr
      refine ⟨?_, ?_, ?_, ?_, ?_, ?_⟩
      · intro b hb
        rw [ihU b (by omega)]
        exact wf1 b (by omega)
      · intro o ho
        rcases Nat.lt_or_ge o bw with ho1 | ho2
        · rw [ihU (outPos + o) (by omega), wf2 o (by omega)]
          rw [Nat.mod_eq_of_lt (show f.rptr + o < f.size by omega)]
        · rw [show outPos + o = outPos + bw + (o - bw) by omega, ihI (o - bw) (by omega)]
          rw [show (o - bw) % 8 = o % 8 by omega]
          rw [fifo_rptr_incby_size, hf2r, Nat.mod_add_mod,
            show f.rptr + bw + (o - bw) = f.rptr + o by omega]
          by_cases h0 : o % 8 = 0
          · rw [if_pos h0, if_pos h0]
          · by_cases h4m : o % 8 = 4
            · rw [if_neg h0, if_neg h0, if_pos h4m, if_pos h4m]
            · rw [if_neg h0, if_neg h0, if_neg h4m, if_neg h4m]
              rw [wf1 (outPos + bw + (o - bw)) (by omega)]
      · rw [ihR, fifo_rptr_incby_size, hf2r, Nat.mod_add_mod,
          show f.rptr + bw + (U - bw) = f.rptr + U by omega]
      · rw [ihW, fifo_rptr_incby_wptr]
      · rw [ihS, fifo_rptr_incby_size]
      · rw [ihE]
        simp only [BYTES_TO_SAMPLES]
        omega

/-! ### The skip computation and execution -/

lemma computeSkip_spec (u len sab : Nat) :
    (¬(len ≤ u ∧ 0 < sab) → computeSkip u len sab = 0) ∧
    (len ≤ u ∧ 0 < sab → computeSkip u len sab = min sab (u - len)) ∧
    computeSkip u len sab ≤ u - len ∧
    computeSkip u len sab ≤ sab := by
  simp only [computeSkip]
  by_cases h : len ≤ u ∧ 0 < sab
  · rw [if_pos h]
    refine ⟨fun hc => absurd h hc, fun _ => ?_, ?_, ?_⟩
    · rcases Nat.lt_or_ge sab (u - len) with h2 | h2
      · rw [if_pos h2, Nat.min_eq_left (by omega)]
      · rw [if_neg (by omega), Nat.min_eq_right (by omega)]
    · split <;> omega
    · split <;> omega
  · rw [if_neg h]
    exact ⟨fun _ => rfl, fun hc => absurd hc h, by omega, by omega⟩

lemma doSkip_spec (f : Fifo) (sab elapsed sk : Nat)
    (h1 : f.rptr < f.size) (h2 : 8 ∣ f.rptr) (h3 : 8 ∣ f.size)
    (h4 : sk ≤ f.size) (h6 : 8 ∣ sk) :
    (doSkip f sab elapsed sk).1.rptr = (f.rptr + sk) % f.size ∧
    (doSkip f sab elapsed sk).1.wptr = f.wptr ∧
    (doSkip f sab elapsed sk).1.size = f.size ∧
    (doSkip f sab elapsed sk).2.1 = sab - sk ∧
    (doSkip f sab elapsed sk).2.2 = elapsed + sk / 8 := by
  unfold doSkip
  have hwrapEq : fifo_bytes_until_rptr_wrap f = f.size - f.rptr := rfl
  have hwrap8 : 8 ∣ fifo_bytes_until_rptr_wrap f := by
    rw [hwrapEq]; exact Nat.dvd_sub' h3 h2
  by_cases hsk : sk = 0
  · subst hsk
    rw [if_pos rfl]
    refine ⟨?_, rfl, rfl, by simp, by simp⟩
    rw [Nat.add_zero, Nat.mod_eq_of_lt h1]
  · rw [if_neg hsk]
    by_cases hw : fifo_bytes_until_rptr_wrap f < sk
    · rw [if_pos hw]
      have e1 : (fifo_rptr_incby f (fifo_bytes_until_rptr_wrap f)).rptr = 0 := by
        rw [fifo_rptr_incby_rptr, hwrapEq, if_pos (by omega)]
        omega
      refine ⟨?_, rfl, rfl, ?_, ?_⟩
      · show (fifo_rptr_incby (fifo_rptr_incby f (fifo_bytes_until_rptr_wrap f))
            (sk - fifo_bytes_until_rptr_wrap f)).rptr = (f.rptr + sk) % f.size
        rw [fifo_rptr_incby_rptr, fifo_rptr_incby_size, e1]
        rw [if_neg (by omega)]
        rw [show f.rptr + sk = f.size + (sk - fifo_bytes_until_rptr_wrap f) by omega,
          Nat.add_mod_left, Nat.mod_eq_of_lt (by omega)]
        omega
      · show sab - fifo_bytes_until_rptr_wrap f - (sk - fifo_bytes_until_rptr_wrap f)
            = sab - sk
        omega
      · show elapsed + BYTES_TO_SAMPLES (fifo_bytes_until_rptr_wrap f)
            + BYTES_TO_SAMPLES (sk - fifo_bytes_until_rptr_wrap f) = elapsed + sk / 8
        simp only [BYTES_TO_SAMPLES]
        omega
    · rw [if_neg hw]
      exact ⟨fifo_rptr_incby_rptr_mod f sk h1 (by omega), rfl, rfl, rfl, rfl⟩

/-! ### End-to-end description of the main body of the render callback -/

/-- Characterisation of `callbackMain` when the clamped byte count `bu` is
positive, under the frame-alignment invariants.  `u` is the buffered byte
count, `sk` the computed skip and `bu` the clamped copy count. -/
lemma callbackMain_spec (buf : Nat → Int) (rate : Nat) (rsp : Bool) (out1 : Nat → Int)
    (outPos len1 lenFull : Nat) (a : DecodeAudio) (u sk bu : Nat)
    (hu : u = fifo_bytes_used a.fifo)
    (hsk : sk = computeSkip u len1 a.skip_ahead_bytes)
    (hbu : bu = if len1 < u then len1 else u)
    (hr : a.fifo.rptr < a.fifo.size) (hw : a.fifo.wptr < a.fifo.size)
    (h8r : 8 ∣ a.fifo.rptr) (h8s : 8 ∣ a.fifo.size) (h8w : 8 ∣ a.fifo.wptr)
    (h8k : 8 ∣ a.skip_ahead_bytes) (h8l : 8 ∣ len1)
    (hbune : bu ≠ 0) :
    ((bu < len1 → (callbackMain buf rate rsp out1 outPos len1 lenFull a).audio.underrun = true) ∧
     (¬ bu < len1 → (callbackMain buf rate rsp out1 outPos len1 lenFull a).audio.underrun = false) ∧
     (callbackMain buf rate rsp out1 outPos len1 lenFull a).audio.skip_ahead_bytes =
       a.skip_ahead_bytes - sk ∧
     (callbackMain buf rate rsp out1 outPos len1 lenFull a).audio.elapsed_samples =
       a.elapsed_samples + sk / 8 + bu / 8 ∧
     (callbackMain buf rate rsp out1 outPos len1 lenFull a).audio.fifo.rptr =
       (a.fifo.rptr + sk + bu) % a.fifo.size ∧
     (callbackMain buf rate rsp out1 outPos len1 lenFull a).audio.fifo.wptr = a.fifo.wptr ∧
     (callbackMain buf rate rsp out1 outPos len1 lenFull a).audio.fifo.size = a.fifo.size ∧
     (callbackMain buf rate rsp out1 outPos len1 lenFull a).audio.set_sample_rate =
       (if rsp = true ∧ a.track_sample_rate ≠ rate then a.track_sample_rate
        else a.set_sample_rate) ∧
     (∀ b, b < outPos ∨ outPos + len1 ≤ b →
       (callbackMain buf rate rsp out1 outPos len1 lenFull a).out b = out1 b) ∧
     (∀ o, o < bu →
       (callbackMain buf rate rsp out1 outPos len1 lenFull a).out (outPos + o) =
         (if o % 8 = 0 then fixed_mul a.lgain (buf ((a.fifo.rptr + sk + o) % a.fifo.size))
          else if o % 8 = 4 then fixed_mul a.rgain (buf ((a.fifo.rptr + sk + o) % a.fifo.size))
          else out1 (outPos + o))) ∧
     (∀ b, outPos + bu ≤ b → b < outPos + len1 →
       (callbackMain buf rate rsp out1 outPos len1 lenFull a).out b = 0) ∧
     (callbackMain buf rate rsp out1 outPos len1 lenFull a).events =
       [Ev.lock, Ev.unlock, Ev.mix lenFull] ∧
     (callbackMain buf rate rsp out1 outPos len1 lenFull a).ret = PaRet.paContinue) := by
  have hu8 : 8 ∣ u := hu ▸ fifo_bytes_used_dvd a.fifo h8r h8w h8s
  have hule : u ≤ a.fifo.size := hu ▸ fifo_bytes_used_le a.fifo hw
  obtain ⟨cs1, cs2, cs3, cs4⟩ := computeSkip_spec u len1 a.skip_ahead_bytes
  have hsk8 : 8 ∣ sk := by
    rw [hsk]
    by_cases h : len1 ≤ u ∧ 0 < a.skip_ahead_bytes
    · rw [cs2 h, Nat.min_def]
      split
      · exact h8k
      · exact Nat.dvd_sub' hu8 h8l
    · rw [cs1 h]
      exact dvd_zero 8
  have hsklen : sk ≤ u - len1 := hsk ▸ cs3
  have hskSize : sk ≤ a.fifo.size := by omega
  have hbu8 : 8 ∣ bu := by
    rw [hbu]
    split
    · exact h8l
    · exact hu8
  have hbuleU : bu ≤ u := by rw [hbu]; split <;> omega
  have hbulel : bu ≤ len1 := by rw [hbu]; split <;> omega
  have hbuSize : bu ≤ a.fifo.size := by omega
  obtain ⟨ds1, ds2, ds3, ds4, ds5⟩ :=
    doSkip_spec a.fifo a.skip_ahead_bytes a.elapsed_samples sk hr h8r h8s hskSize hsk8
  have hS_lt : (doSkip a.fifo a.skip_ahead_bytes a.elapsed_samples sk).1.rptr
      < (doSkip a.fifo a.skip_ahead_bytes a.elapsed_samples sk).1.size := by
    rw [ds1, ds3]; exact Nat.mod_lt _ (by omega)
  have hS_8 : 8 ∣ (doSkip a.fifo a.skip_ahead_bytes a.elapsed_samples sk).1.rptr := by
    rw [ds1]; exact (Nat.dvd_mod_iff h8s).mpr (Nat.dvd_add h8r hsk8)
  have hS_s8 : 8 ∣ (doSkip a.fifo a.skip_ahead_bytes a.elapsed_samples sk).1.size := by
    rw [ds3]; exact h8s
  have hS_bu : bu ≤ (doSkip a.fifo a.skip_ahead_bytes a.elapsed_samples sk).1.size := by
    rw [ds3]; omega
  obtain ⟨cl1, cl2, cl3, cl4, cl5, cl6⟩ :=
    copyLoop_spec buf a.lgain a.rgain bu bu
      (if bu < len1 then memset0 out1 (outPos + bu) (len1 - bu) else out1) outPos
      (doSkip a.fifo a.skip_ahead_bytes a.elapsed_samples sk).1
      (doSkip a.fifo a.skip_ahead_bytes a.elapsed_samples sk).2.2
      le_rfl hS_lt hS_8 hS_s8 hbu8 hS_bu
  simp only [callbackMain]
  rw [← hu, ← hsk, ← hbu]
  simp only [if_neg hbune]
  refine ⟨?_, ?_, ds4, ?_, ?_, ?_, ?_, ?_, ?_, ?_, ?_, ?_, ?_⟩
  · intro h
    rw [if_pos h]
  · intro h
    rw [if_neg h]
  · rw [cl6, ds5]
  · rw [cl3, ds1, ds3, Nat.mod_add_mod]
  · rw [cl4, ds2]
  · rw [cl5, ds3]
  · trivial
  · intro b hb
    rw [cl1 b (by omega)]
    by_cases hul : bu < len1
    · rw [if_pos hul]
      simp only [memset0]
      rw [if_neg (by omega)]
    · rw [if_neg hul]
  · intro o ho
    rw [cl2 o ho, ds1, ds3, Nat.mod_add_mod]
    by_cases hul : bu < len1
    · rw [if_pos hul]
      simp only [memset0]
      rw [if_neg (show ¬(outPos + bu ≤ outPos + o ∧
        outPos + o < outPos + bu + (len1 - bu)) by omega)]
    · rw [if_neg hul]
  · intro b hb1 hb2
    have hul : bu < len1 := by omega
    rw [cl1 b (by omega), if_pos hul]
    simp only [memset0]
    rw [if_pos (show outPos + bu ≤ b ∧ b < outPos + bu + (len1 - bu) by omega)]
  · trivial
  · trivial

/-! ### Path lemmas for the callback -/

lemma callbackMain_zero (buf : Nat → Int) (rate : Nat) (rsp : Bool) (out1 : Nat → Int)
    (outPos len1 lenFull : Nat) (a : DecodeAudio)
    (hbu : (if len1 < fifo_bytes_used a.fifo then len1 else fifo_bytes_used a.fifo) = 0) :
    callbackMain buf rate rsp out1 outPos len1 lenFull a =
      { audio := { a with underrun := true },
        out := memset0 out1 outPos len1,
        events := [Ev.lock, Ev.unlock, Ev.mix lenFull],
        ret := PaRet.paContinue } := by
  simp only [callbackMain]
  rw [if_pos hbu]

lemma callback_not_running (F st : Nat) (buf : Nat → Int) (rate : Nat) (rsp : Bool)
    (out0 : Nat → Int) (a : DecodeAudio) (hrun : a.running = false) :
    callback F st buf rate rsp out0 a =
      { audio := a, out := memset0 out0 0 (SAMPLES_TO_BYTES F),
        events := [Ev.lock, Ev.mix (SAMPLES_TO_BYTES F)],
        ret := PaRet.paContinue } := by
  simp only [callback]
  rw [if_pos hrun]

lemma callback_run_eq (F st : Nat) (buf : Nat → Int) (rate : Nat) (rsp : Bool)
    (out0 : Nat → Int) (a : DecodeAudio) (hrun : a.running = true)
    (hsil : a.add_silence_ms = 0) :
    callback F st buf rate rsp out0 a =
      callbackMain buf rate rsp out0 0 (SAMPLES_TO_BYTES F) (SAMPLES_TO_BYTES F) a := by
  simp only [callback, callbackRunning]
  rw [if_neg (show ¬a.running = false by simp [hrun]),
    if_neg (show ¬a.add_silence_ms ≠ 0 by simp [hsil])]

lemma callback_silence_full (F st : Nat) (buf : Nat → Int) (rate : Nat) (rsp : Bool)
    (out0 : Nat → Int) (a : DecodeAudio) (hrun : a.running = true)
    (hms : a.add_silence_ms ≠ 0)
    (hcons : SAMPLES_TO_BYTES F
      - clampedSilenceBytes a.add_silence_ms rate (SAMPLES_TO_BYTES F) = 0) :
    callback F st buf rate rsp out0 a =
      { audio := a,
        out := memset0 out0 0 (clampedSilenceBytes a.add_silence_ms rate (SAMPLES_TO_BYTES F)),
        events := [Ev.lock, Ev.unlock, Ev.mix (SAMPLES_TO_BYTES F)],
        ret := PaRet.paContinue } := by
  simp only [callback, callbackRunning]
  rw [if_neg (show ¬a.running = false by simp [hrun]), if_pos hms, if_pos hcons]

lemma callback_silence_leftover (F st : Nat) (buf : Nat → Int) (rate : Nat) (rsp : Bool)
    (out0 : Nat → Int) (a : DecodeAudio) (hrun : a.running = true)
    (hms : a.add_silence_ms ≠ 0)
    (hrem : SAMPLES_TO_BYTES F
      - clampedSilenceBytes a.add_silence_ms rate (SAMPLES_TO_BYTES F) ≠ 0) :
    callback F st buf rate rsp out0 a =
      callbackMain buf rate rsp
        (memset0 out0 0 (clampedSilenceBytes a.add_silence_ms rate (SAMPLES_TO_BYTES F)))
        (clampedSilenceBytes a.add_silence_ms rate (SAMPLES_TO_BYTES F))
        (SAMPLES_TO_BYTES F - clampedSilenceBytes a.add_silence_ms rate (SAMPLES_TO_BYTES F))
        (SAMPLES_TO_BYTES F) a := by
  simp only [callback, callbackRunning]
  rw [if_neg (show ¬a.running = false by simp [hrun]), if_pos hms, if_neg hrem]

lemma clampedSilenceBytes_dvd (ms rate lenFull : Nat) (h : 8 ∣ lenFull) :
    8 ∣ clampedSilenceBytes ms rate lenFull := by
  unfold clampedSilenceBytes SAMPLES_TO_BYTES
  split
  · exact h
  · exact dvd_mul_right 8 _

lemma clampedSilenceBytes_le (ms rate lenFull : Nat) :
    clampedSilenceBytes ms rate lenFull ≤ lenFull := by
  unfold clampedSilenceBytes
  split <;> omega

lemma min_eq_ite (x y : Nat) : min x y = if x < y then x else y := by
  rw [Nat.min_def]
  split <;> split <;> omega

lemma computeSkip_dvd (u len sab : Nat) (h8u : 8 ∣ u) (h8l : 8 ∣ len) (h8k : 8 ∣ sab) :
    8 ∣ computeSkip u len sab := by
  obtain ⟨cs1, cs2, _, _⟩ := computeSkip_spec u len sab
  by_cases h : len ≤ u ∧ 0 < sab
  · rw [cs2 h, Nat.min_def]
    split
    · exact h8k
    · exact Nat.dvd_sub' h8u h8l
  · rw [cs1 h]
    exact dvd_zero 8

/-! ### The claims -/

/-- C1: with the running flag set, no pending silence, a requested length of
F frames and U bytes buffered: if U ≥ bytes(F) the output is exactly F
gain-scaled frames and the underrun flag is cleared; if 0 < U < bytes(F) the
first U bytes of output are gain-scaled frames, the tail is zeroed and the
underrun flag is set; if U = 0 the whole output is zeroed and the underrun
flag is set. -/
theorem c1_underrun_cases (F st : Nat) (buf : Nat → Int) (rate : Nat) (rsp : Bool)
    (out0 : Nat → Int) (a : DecodeAudio)
    (hrun : a.running = true) (hsil : a.add_silence_ms = 0) (hF : 0 < F)
    (hr : a.fifo.rptr < a.fifo.size) (hw : a.fifo.wptr < a.fifo.size)
    (h8r : 8 ∣ a.fifo.rptr) (h8s : 8 ∣ a.fifo.size) (h8w : 8 ∣ a.fifo.wptr)
    (h8k : 8 ∣ a.skip_ahead_bytes) :
    ((SAMPLES_TO_BYTES F ≤ fifo_bytes_used a.fifo →
        (callback F st buf rate rsp out0 a).audio.underrun = false ∧
        ∀ i, i < F →
          (callback F st buf rate rsp out0 a).out (8 * i) =
            fixed_mul a.lgain (buf ((a.fifo.rptr +
              computeSkip (fifo_bytes_used a.fifo) (SAMPLES_TO_BYTES F) a.skip_ahead_bytes
              + 8 * i) % a.fifo.size)) ∧
          (callback F st buf rate rsp out0 a).out (8 * i + 4) =
            fixed_mul a.rgain (buf ((a.fifo.rptr +
              computeSkip (fifo_bytes_used a.fifo) (SAMPLES_TO_BYTES F) a.skip_ahead_bytes
              + (8 * i + 4)) % a.fifo.size))) ∧
     (0 < fifo_bytes_used a.fifo → fifo_bytes_used a.fifo < SAMPLES_TO_BYTES F →
        (callback F st buf rate rsp out0 a).audio.underrun = true ∧
        (∀ i, 8 * i < fifo_bytes_used a.fifo →
          (callback F st buf rate rsp out0 a).out (8 * i) =
            fixed_mul a.lgain (buf ((a.fifo.rptr + 8 * i) % a.fifo.size)) ∧
          (callback F st buf rate rsp out0 a).out (8 * i + 4) =
            fixed_mul a.rgain (buf ((a.fifo.rptr + (8 * i + 4)) % a.fifo.size))) ∧
        (∀ b, fifo_bytes_used a.fifo ≤ b → b < SAMPLES_TO_BYTES F →
          (callback F st buf rate rsp out0 a).out b = 0)) ∧
     (fifo_bytes_used a.fifo = 0 →
        (callback F st buf rate rsp out0 a).audio.underrun = true ∧
        ∀ b, b < SAMPLES_TO_BYTES F →
          (callback F st buf rate rsp out0 a).out b = 0)) := by
  rw [callback_run_eq F st buf rate rsp out0 a hrun hsil]
  have h8len : 8 ∣ SAMPLES_TO_BYTES F := dvd_mul_right 8 F
  have h8u : 8 ∣ fifo_bytes_used a.fifo := fifo_bytes_used_dvd a.fifo h8r h8w h8s
  refine ⟨?_, ?_, ?_⟩
  · intro hle
    have hbuEq : (if SAMPLES_TO_BYTES F < fifo_bytes_used a.fifo then SAMPLES_TO_BYTES F
        else fifo_bytes_used a.fifo) = SAMPLES_TO_BYTES F := by
      split <;> omega
    have hbune : (if SAMPLES_TO_BYTES F < fifo_bytes_used a.fifo then SAMPLES_TO_BYTES F
        else fifo_bytes_used a.fifo) ≠ 0 := by
      rw [hbuEq]
      simp only [SAMPLES_TO_BYTES]
      omega
    obtain ⟨m1, m2, m3, m4, m5, m6, m7, m8, m9, m10, m11, m12, m13⟩ :=
      callbackMain_spec buf rate rsp out0 0 (SAMPLES_TO_BYTES F) (SAMPLES_TO_BYTES F) a
        _ _ _ rfl rfl rfl hr hw h8r h8s h8w h8k h8len hbune
    rw [hbuEq] at m2 m10
    refine ⟨m2 (by omega), ?_⟩
    intro i hi
    have hl := m10 (8 * i) (by simp only [SAMPLES_TO_BYTES]; omega)
    have hrt := m10 (8 * i + 4) (by simp only [SAMPLES_TO_BYTES]; omega)
    rw [Nat.zero_add] at hl hrt
    rw [if_pos (show 8 * i % 8 = 0 by omega)] at hl
    rw [if_neg (show ¬(8 * i + 4) % 8 = 0 by omega),
      if_pos (show (8 * i + 4) % 8 = 4 by omega)] at hrt
    exact ⟨hl, hrt⟩
  · intro hpos hlt
    have hbuEq : (if SAMPLES_TO_BYTES F < fifo_bytes_used a.fifo then SAMPLES_TO_BYTES F
        else fifo_bytes_used a.fifo) = fifo_bytes_used a.fifo := by
      split <;> omega
    have hbune : (if SAMPLES_TO_BYTES F < fifo_bytes_used a.fifo then SAMPLES_TO_BYTES F
        else fifo_bytes_used a.fifo) ≠ 0 := by omega
    obtain ⟨m1, m2, m3, m4, m5, m6, m7, m8, m9, m10, m11, m12, m13⟩ :=
      callbackMain_spec buf rate rsp out0 0 (SAMPLES_TO_BYTES F) (SAMPLES_TO_BYTES F) a
        _ _ _ rfl rfl rfl hr hw h8r h8s h8w h8k h8len hbune
    rw [hbuEq] at m1 m10 m11
    have hsk0 : computeSkip (fifo_bytes_used a.fifo) (SAMPLES_TO_BYTES F)
        a.skip_ahead_bytes = 0 :=
      (computeSkip_spec _ _ _).1 (by omega)
    rw [hsk0] at m10
    refine ⟨m1 (by omega), ?_, ?_⟩
    · intro i hi
      have hl := m10 (8 * i) (by omega)
      have hrt := m10 (8 * i + 4) (by omega)
      rw [Nat.zero_add] at hl hrt
      rw [if_pos (show 8 * i % 8 = 0 by omega), Nat.add_zero] at hl
      rw [if_neg (show ¬(8 * i + 4) % 8 = 0 by omega),
        if_pos (show (8 * i + 4) % 8 = 4 by omega), Nat.add_zero] at hrt
      exact ⟨hl, hrt⟩
    · intro b hb1 hb2
      exact m11 b (by omega) (by omega)
  · intro h0
    have hbu : (if SAMPLES_TO_BYTES F < fifo_bytes_used a.fifo then SAMPLES_TO_BYTES F
        else fifo_bytes_used a.fifo) = 0 := by
      rw [h0]
      split <;> omega
    rw [callbackMain_zero buf rate rsp out0 0 (SAMPLES_TO_BYTES F) (SAMPLES_TO_BYTES F) a hbu]
    refine ⟨rfl, ?_⟩
    intro b hb
    simp only [memset0]
    rw [if_pos (show 0 ≤ b ∧ b < 0 + SAMPLES_TO_BYTES F by omega)]

/-- Witness for C1 at a concrete input: one frame requested, exactly one
frame buffered, unit gains: the underrun flag comes out cleared. -/
theorem c1_witness :
    (callback 1 0 (fun b => (b : Int)) 44100 false (fun _ => 5)
      { running := true, underrun := true, lgain := 65536, rgain := 65536,
        add_silence_ms := 0, skip_ahead_bytes := 0, elapsed_samples := 0,
        track_sample_rate := 44100, set_sample_rate := 0, max_rate := 48000,
        fifo := { rptr := 8, wptr := 0, size := 16 } }).audio.underrun = false :=
  ((c1_underrun_cases 1 0 (fun b => (b : Int)) 44100 false (fun _ => 5)
      { running := true, underrun := true, lgain := 65536, rgain := 65536,
        add_silence_ms := 0, skip_ahead_bytes := 0, elapsed_samples := 0,
        track_sample_rate := 44100, set_sample_rate := 0, max_rate := 48000,
        fifo := { rptr := 8, wptr := 0, size := 16 } }
      rfl rfl (by decide) (by decide) (by decide)
      ⟨1, rfl⟩ ⟨2, rfl⟩ ⟨0, rfl⟩ ⟨0, rfl⟩).1 (by decide)).1

/-- C2 (code bug): on the not-running path the source jumps from step 1
straight to the mixin_effects label, past the decode_audio_unlock call at
the unlock_mixin_effects label, so the shared-state lock acquired at the top
of the callback is never released on that path: the observable actions are
lock then mixer, with no unlock before the mixer or before returning. -/
theorem c2_lock_not_released_when_stopped :
    (callback 4 0 (fun _ => 0) 44100 false (fun _ => 0)
      { running := false, underrun := false, lgain := 0, rgain := 0,
        add_silence_ms := 0, skip_ahead_bytes := 0, elapsed_samples := 0,
        track_sample_rate := 44100, set_sample_rate := 0, max_rate := 48000,
        fifo := { rptr := 0, wptr := 0, size := 16 } }).events
      = [Ev.lock, Ev.mix 32] ∧
    Ev.unlock ∉ (callback 4 0 (fun _ => 0) 44100 false (fun _ => 0)
      { running := false, underrun := false, lgain := 0, rgain := 0,
        add_silence_ms := 0, skip_ahead_bytes := 0, elapsed_samples := 0,
        track_sample_rate := 44100, set_sample_rate := 0, max_rate := 48000,
        fifo := { rptr := 0, wptr := 0, size := 16 } }).events := by
  constructor
  · rfl
  · decide

/-- C3 (code bug): the render callback computes the decremented, snapped
silence countdown (`silenceRemaining`) only into a local variable and never
stores it back into the shared state: after a callback that consumed 450
frames (10 ms at 44100 Hz) of a 500 ms pending silence, the shared pending
silence duration is still 500, although the countdown the spec asks to store
is 490. -/
theorem c3_silence_countdown_not_stored :
    (callback 450 0 (fun _ => 0) 44100 false (fun _ => 0)
      { running := true, underrun := false, lgain := 0, rgain := 0,
        add_silence_ms := 500, skip_ahead_bytes := 0, elapsed_samples := 0,
        track_sample_rate := 44100, set_sample_rate := 0, max_rate := 48000,
        fifo := { rptr := 0, wptr := 0, size := 16 } }).audio.add_silence_ms = 500 ∧
    silenceRemaining 500 44100 (SAMPLES_TO_BYTES 450) = 490 := by
  constructor
  · rfl
  · decide

/-- C4: a skip amount is computed only when the skip-ahead counter is
positive and the buffered count covers the remaining request, equals
min(pending skip-ahead, bytes_used − remaining length), never exceeds
bytes_used − remaining length, can never leave fewer than the requested
bytes behind, and is exactly the amount removed from the skip-ahead counter
by the callback. -/
theorem c4_skip_never_starves (F st : Nat) (buf : Nat → Int) (rate : Nat) (rsp : Bool)
    (out0 : Nat → Int) (a : DecodeAudio)
    (hrun : a.running = true) (hsil : a.add_silence_ms = 0)
    (hr : a.fifo.rptr < a.fifo.size) (hw : a.fifo.wptr < a.fifo.size)
    (h8r : 8 ∣ a.fifo.rptr) (h8s : 8 ∣ a.fifo.size) (h8w : 8 ∣ a.fifo.wptr)
    (h8k : 8 ∣ a.skip_ahead_bytes) :
    ((¬(SAMPLES_TO_BYTES F ≤ fifo_bytes_used a.fifo ∧ 0 < a.skip_ahead_bytes) →
        computeSkip (fifo_bytes_used a.fifo) (SAMPLES_TO_BYTES F) a.skip_ahead_bytes = 0) ∧
     (SAMPLES_TO_BYTES F ≤ fifo_bytes_used a.fifo ∧ 0 < a.skip_ahead_bytes →
        computeSkip (fifo_bytes_used a.fifo) (SAMPLES_TO_BYTES F) a.skip_ahead_bytes =
          min a.skip_ahead_bytes (fifo_bytes_used a.fifo - SAMPLES_TO_BYTES F)) ∧
     computeSkip (fifo_bytes_used a.fifo) (SAMPLES_TO_BYTES F) a.skip_ahead_bytes ≤
       fifo_bytes_used a.fifo - SAMPLES_TO_BYTES F ∧
     (SAMPLES_TO_BYTES F ≤ fifo_bytes_used a.fifo →
        SAMPLES_TO_BYTES F ≤ fifo_bytes_used a.fifo -
          computeSkip (fifo_bytes_used a.fifo) (SAMPLES_TO_BYTES F) a.skip_ahead_bytes) ∧
     ((if SAMPLES_TO_BYTES F < fifo_bytes_used a.fifo then SAMPLES_TO_BYTES F
        else fifo_bytes_used a.fifo) ≠ 0 →
        (callback F st buf rate rsp out0 a).audio.skip_ahead_bytes =
          a.skip_ahead_bytes -
            computeSkip (fifo_bytes_used a.fifo) (SAMPLES_TO_BYTES F) a.skip_ahead_bytes)) := by
  obtain ⟨cs1, cs2, cs3, cs4⟩ :=
    computeSkip_spec (fifo_bytes_used a.fifo) (SAMPLES_TO_BYTES F) a.skip_ahead_bytes
  refine ⟨cs1, cs2, cs3, fun hle => by omega, ?_⟩
  intro hbune
  rw [callback_run_eq F st buf rate rsp out0 a hrun hsil]
  obtain ⟨m1, m2, m3, m4, m5, m6, m7, m8, m9, m10, m11, m12, m13⟩ :=
    callbackMain_spec buf rate rsp out0 0 (SAMPLES_TO_BYTES F) (SAMPLES_TO_BYTES F) a
      _ _ _ rfl rfl rfl hr hw h8r h8s h8w h8k (dvd_mul_right 8 F) hbune
  exact m3

/-- Witness for C4 at a concrete input: 24 bytes buffered, 8 requested, 8
bytes of skip-ahead pending: the whole pending skip executes (the counter
drops to 0) and the request is still fully served. -/
theorem c4_witness :
    (callback 1 0 (fun _ => 0) 44100 false (fun _ => 0)
      { running := true, underrun := false, lgain := 0, rgain := 0,
        add_silence_ms := 0, skip_ahead_bytes := 8, elapsed_samples := 0,
        track_sample_rate := 44100, set_sample_rate := 0, max_rate := 48000,
        fifo := { rptr := 0, wptr := 24, size := 32 } }).audio.skip_ahead_bytes = 0 :=
  ((c4_skip_never_starves 1 0 (fun _ => 0) 44100 false (fun _ => 0)
      { running := true, underrun := false, lgain := 0, rgain := 0,
        add_silence_ms := 0, skip_ahead_bytes := 8, elapsed_samples := 0,
        track_sample_rate := 44100, set_sample_rate := 0, max_rate := 48000,
        fifo := { rptr := 0, wptr := 24, size := 32 } }
      rfl rfl (by decide) (by decide) ⟨0, rfl⟩ ⟨4, rfl⟩ ⟨3, rfl⟩ ⟨1, rfl⟩).2.2.2.2
    (by decide))

/-- C5: every stereo frame copied to the output carries the left gain on the
left sample and the right gain on the right sample through the one
fixed-point rule, the source sample being read at the (possibly
skip-advanced) read index modulo the capacity — the identical rule on both
sides of the wrap boundary. -/
theorem c5_gain_per_frame (F st : Nat) (buf : Nat → Int) (rate : Nat) (rsp : Bool)
    (out0 : Nat → Int) (a : DecodeAudio)
    (hrun : a.running = true) (hsil : a.add_silence_ms = 0)
    (hr : a.fifo.rptr < a.fifo.size) (hw : a.fifo.wptr < a.fifo.size)
    (h8r : 8 ∣ a.fifo.rptr) (h8s : 8 ∣ a.fifo.size) (h8w : 8 ∣ a.fifo.wptr)
    (h8k : 8 ∣ a.skip_ahead_bytes) :
    ∀ i, 8 * i < min (SAMPLES_TO_BYTES F) (fifo_bytes_used a.fifo) →
      (callback F st buf rate rsp out0 a).out (8 * i) =
        fixed_mul a.lgain (buf ((a.fifo.rptr +
          computeSkip (fifo_bytes_used a.fifo) (SAMPLES_TO_BYTES F) a.skip_ahead_bytes
          + 8 * i) % a.fifo.size)) ∧
      (callback F st buf rate rsp out0 a).out (8 * i + 4) =
        fixed_mul a.rgain (buf ((a.fifo.rptr +
          computeSkip (fifo_bytes_used a.fifo) (SAMPLES_TO_BYTES F) a.skip_ahead_bytes
          + (8 * i + 4)) % a.fifo.size)) := by
  rw [callback_run_eq F st buf rate rsp out0 a hrun hsil]
  intro i hi
  rw [min_eq_ite] at hi
  have h8u : 8 ∣ fifo_bytes_used a.fifo := fifo_bytes_used_dvd a.fifo h8r h8w h8s
  have hbu8 : 8 ∣ (if SAMPLES_TO_BYTES F < fifo_bytes_used a.fifo then SAMPLES_TO_BYTES F
      else fifo_bytes_used a.fifo) := by
    split
    · exact dvd_mul_right 8 F
    · exact h8u
  have hbune : (if SAMPLES_TO_BYTES F < fifo_bytes_used a.fifo then SAMPLES_TO_BYTES F
      else fifo_bytes_used a.fifo) ≠ 0 := by omega
  obtain ⟨m1, m2, m3, m4, m5, m6, m7, m8, m9, m10, m11, m12, m13⟩ :=
    callbackMain_spec buf rate rsp out0 0 (SAMPLES_TO_BYTES F) (SAMPLES_TO_BYTES F) a
      _ _ _ rfl rfl rfl hr hw h8r h8s h8w h8k (dvd_mul_right 8 F) hbune
  have hl := m10 (8 * i) (by omega)
  have hrt := m10 (8 * i + 4) (by omega)
  rw [Nat.zero_add] at hl hrt
  rw [if_pos (show 8 * i % 8 = 0 by omega)] at hl
  rw [if_neg (show ¬(8 * i + 4) % 8 = 0 by omega),
    if_pos (show (8 * i + 4) % 8 = 4 by omega)] at hrt
  exact ⟨hl, hrt⟩

/-- Witness for C5 at a concrete input: one frame buffered right at the end
of the buffer, unit gains: the left output sample is the gain-scaled source
sample. -/
theorem c5_witness :
    (callback 1 0 (fun _ => 3) 44100 false (fun _ => 5)
      { running := true, underrun := true, lgain := 65536, rgain := 65536,
        add_silence_ms := 0, skip_ahead_bytes := 0, elapsed_samples := 0,
        track_sample_rate := 44100, set_sample_rate := 0, max_rate := 48000,
        fifo := { rptr := 8, wptr := 0, size := 16 } }).out 0 = fixed_mul 65536 3 :=
  (c5_gain_per_frame 1 0 (fun _ => 3) 44100 false (fun _ => 5)
      { running := true, underrun := true, lgain := 65536, rgain := 65536,
        add_silence_ms := 0, skip_ahead_bytes := 0, elapsed_samples := 0,
        track_sample_rate := 44100, set_sample_rate := 0, max_rate := 48000,
        fifo := { rptr := 8, wptr := 0, size := 16 } }
      rfl rfl (by decide) (by decide) ⟨1, rfl⟩ ⟨2, rfl⟩ ⟨0, rfl⟩ ⟨0, rfl⟩
      0 (by decide)).1

/-- C6: across one render-callback invocation the elapsed-sample counter
advances by exactly the frame-equivalent of (bytes skipped + bytes copied),
wrap handled as two segments included; on the not-running path, the
full-silence path and the zero-bytes-buffered underrun path (with or without
a silence prefix) it advances by exactly zero. -/
theorem c6_elapsed_exact (F st : Nat) (buf : Nat → Int) (rate : Nat) (rsp : Bool)
    (out0 : Nat → Int) (a : DecodeAudio)
    (hr : a.fifo.rptr < a.fifo.size) (hw : a.fifo.wptr < a.fifo.size)
    (h8r : 8 ∣ a.fifo.rptr) (h8s : 8 ∣ a.fifo.size) (h8w : 8 ∣ a.fifo.wptr)
    (h8k : 8 ∣ a.skip_ahead_bytes) :
    ((a.running = false →
        (callback F st buf rate rsp out0 a).audio.elapsed_samples = a.elapsed_samples) ∧
     (a.running = true → a.add_silence_ms ≠ 0 →
        SAMPLES_TO_BYTES F - clampedSilenceBytes a.add_silence_ms rate (SAMPLES_TO_BYTES F) = 0 →
        (callback F st buf rate rsp out0 a).audio.elapsed_samples = a.elapsed_samples) ∧
     (a.running = true → a.add_silence_ms = 0 → fifo_bytes_used a.fifo = 0 →
        (callback F st buf rate rsp out0 a).audio.elapsed_samples = a.elapsed_samples) ∧
     (a.running = true → a.add_silence_ms = 0 →
        (if SAMPLES_TO_BYTES F < fifo_bytes_used a.fifo then SAMPLES_TO_BYTES F
         else fifo_bytes_used a.fifo) ≠ 0 →
        (callback F st buf rate rsp out0 a).audio.elapsed_samples =
          a.elapsed_samples + BYTES_TO_SAMPLES
            (computeSkip (fifo_bytes_used a.fifo) (SAMPLES_TO_BYTES F) a.skip_ahead_bytes +
             (if SAMPLES_TO_BYTES F < fifo_bytes_used a.fifo then SAMPLES_TO_BYTES F
              else fifo_bytes_used a.fifo))) ∧
     (a.running = true → a.add_silence_ms ≠ 0 →
        SAMPLES_TO_BYTES F - clampedSilenceBytes a.add_silence_ms rate (SAMPLES_TO_BYTES F) ≠ 0 →
        (if SAMPLES_TO_BYTES F - clampedSilenceBytes a.add_silence_ms rate (SAMPLES_TO_BYTES F)
            < fifo_bytes_used a.fifo
          then SAMPLES_TO_BYTES F - clampedSilenceBytes a.add_silence_ms rate (SAMPLES_TO_BYTES F)
          else fifo_bytes_used a.fifo) ≠ 0 →
        (callback F st buf rate rsp out0 a).audio.elapsed_samples =
          a.elapsed_samples + BYTES_TO_SAMPLES
            (computeSkip (fifo_bytes_used a.fifo)
               (SAMPLES_TO_BYTES F - clampedSilenceBytes a.add_silence_ms rate (SAMPLES_TO_BYTES F))
               a.skip_ahead_bytes +
             (if SAMPLES_TO_BYTES F - clampedSilenceBytes a.add_silence_ms rate (SAMPLES_TO_BYTES F)
                 < fifo_bytes_used a.fifo
               then SAMPLES_TO_BYTES F
                 - clampedSilenceBytes a.add_silence_ms rate (SAMPLES_TO_BYTES F)
               else fifo_bytes_used a.fifo))) ∧
     (a.running = true → a.add_silence_ms ≠ 0 →
        SAMPLES_TO_BYTES F - clampedSilenceBytes a.add_silence_ms rate (SAMPLES_TO_BYTES F) ≠ 0 →
        (if SAMPLES_TO_BYTES F - clampedSilenceBytes a.add_silence_ms rate (SAMPLES_TO_BYTES F)
            < fifo_bytes_used a.fifo
          then SAMPLES_TO_BYTES F - clampedSilenceBytes a.add_silence_ms rate (SAMPLES_TO_BYTES F)
          else fifo_bytes_used a.fifo) = 0 →
        (callback F st buf rate rsp out0 a).audio.elapsed_samples = a.elapsed_samples)) := by
  have h8len : 8 ∣ SAMPLES_TO_BYTES F := dvd_mul_right 8 F
  have h8u : 8 ∣ fifo_bytes_used a.fifo := fifo_bytes_used_dvd a.fifo h8r h8w h8s
  refine ⟨?_, ?_, ?_, ?_, ?_, ?_⟩
  · intro hrun
    rw [callback_not_running F st buf rate rsp out0 a hrun]
  · intro hrun hms hcons
    rw [callback_silence_full F st buf rate rsp out0 a hrun hms hcons]
  · intro hrun hsil hU0
    rw [callback_run_eq F st buf rate rsp out0 a hrun hsil,
      callbackMain_zero buf rate rsp out0 0 (SAMPLES_TO_BYTES F) (SAMPLES_TO_BYTES F) a
        (by rw [hU0]; split <;> omega)]
  · intro hrun hsil hbune
    rw [callback_run_eq F st buf rate rsp out0 a hrun hsil]
    obtain ⟨m1, m2, m3, m4, m5, m6, m7, m8, m9, m10, m11, m12, m13⟩ :=
      callbackMain_spec buf rate rsp out0 0 (SAMPLES_TO_BYTES F) (SAMPLES_TO_BYTES F) a
        _ _ _ rfl rfl rfl hr hw h8r h8s h8w h8k h8len hbune
    rw [m4]
    have hsk8 : 8 ∣ computeSkip (fifo_bytes_used a.fifo) (SAMPLES_TO_BYTES F)
        a.skip_ahead_bytes := computeSkip_dvd _ _ _ h8u h8len h8k
    have hbu8 : 8 ∣ (if SAMPLES_TO_BYTES F < fifo_bytes_used a.fifo then SAMPLES_TO_BYTES F
        else fifo_bytes_used a.fifo) := by
      split
      · exact h8len
      · exact h8u
    simp only [BYTES_TO_SAMPLES]
    omega
  · intro hrun hms hrem hbune
    rw [callback_silence_leftover F st buf rate rsp out0 a hrun hms hrem]
    have h8cl : 8 ∣ clampedSilenceBytes a.add_silence_ms rate (SAMPLES_TO_BYTES F) :=
      clampedSilenceBytes_dvd _ _ _ h8len
    have h8l1 : 8 ∣ SAMPLES_TO_BYTES F
        - clampedSilenceBytes a.add_silence_ms rate (SAMPLES_TO_BYTES F) :=
      Nat.dvd_sub' h8len h8cl
    obtain ⟨m1, m2, m3, m4, m5, m6, m7, m8, m9, m10, m11, m12, m13⟩ :=
      callbackMain_spec buf rate rsp
        (memset0 out0 0 (clampedSilenceBytes a.add_silence_ms rate (SAMPLES_TO_BYTES F)))
        (clampedSilenceBytes a.add_silence_ms rate (SAMPLES_TO_BYTES F))
        (SAMPLES_TO_BYTES F - clampedSilenceBytes a.add_silence_ms rate (SAMPLES_TO_BYTES F))
        (SAMPLES_TO_BYTES F) a
        _ _ _ rfl rfl rfl hr hw h8r h8s h8w h8k h8l1 hbune
    rw [m4]
    have hsk8 : 8 ∣ computeSkip (fifo_bytes_used a.fifo)
        (SAMPLES_TO_BYTES F - clampedSilenceBytes a.add_silence_ms rate (SAMPLES_TO_BYTES F))
        a.skip_ahead_bytes := computeSkip_dvd _ _ _ h8u h8l1 h8k
    have hbu8 : 8 ∣ (if SAMPLES_TO_BYTES F
          - clampedSilenceBytes a.add_silence_ms rate (SAMPLES_TO_BYTES F)
          < fifo_bytes_used a.fifo
        then SAMPLES_TO_BYTES F - clampedSilenceBytes a.add_silence_ms rate (SAMPLES_TO_BYTES F)
        else fifo_bytes_used a.fifo) := by
      split
      · exact h8l1
      · exact h8u
    simp only [BYTES_TO_SAMPLES]
    omega
  · intro hrun hms hrem hbu0
    rw [callback_silence_leftover F st buf rate rsp out0 a hrun hms hrem,
      callbackMain_zero buf rate rsp
        (memset0 out0 0 (clampedSilenceBytes a.add_silence_ms rate (SAMPLES_TO_BYTES F)))
        (clampedSilenceBytes a.add_silence_ms rate (SAMPLES_TO_BYTES F))
        (SAMPLES_TO_BYTES F - clampedSilenceBytes a.add_silence_ms rate (SAMPLES_TO_BYTES F))
        (SAMPLES_TO_BYTES F) a hbu0]

/-- Witness for C6 at a concrete input: a main-path callback that copies one
frame advances the elapsed counter by one frame. -/
theorem c6_witness :
    (callback 1 0 (fun _ => 0) 44100 false (fun _ => 0)
      { running := true, underrun := false, lgain := 0, rgain := 0,
        add_silence_ms := 0, skip_ahead_bytes := 0, elapsed_samples := 41,
        track_sample_rate := 44100, set_sample_rate := 0, max_rate := 48000,
        fifo := { rptr := 8, wptr := 0, size := 16 } }).audio.elapsed_samples = 42 :=
  ((c6_elapsed_exact 1 0 (fun _ => 0) 44100 false (fun _ => 0)
      { running := true, underrun := false, lgain := 0, rgain := 0,
        add_silence_ms := 0, skip_ahead_bytes := 0, elapsed_samples := 41,
        track_sample_rate := 44100, set_sample_rate := 0, max_rate := 48000,
        fifo := { rptr := 8, wptr := 0, size := 16 } }
      (by decide) (by decide) ⟨1, rfl⟩ ⟨2, rfl⟩ ⟨0, rfl⟩ ⟨0, rfl⟩).2.2.2.1
    rfl rfl (by decide))

/-- C9: with the running flag clear the callback zeroes all requested
output, leaves the whole shared state (elapsed counter, read index, underrun
flag, skip-ahead counter) unchanged, still invokes the effects mixer over
the full requested byte length, and returns the continue status. -/
theorem c9_stopped_still_mixes (F st : Nat) (buf : Nat → Int) (rate : Nat) (rsp : Bool)
    (out0 : Nat → Int) (a : DecodeAudio) (hrun : a.running = false) :
    (callback F st buf rate rsp out0 a).audio = a ∧
    (∀ b, b < SAMPLES_TO_BYTES F → (callback F st buf rate rsp out0 a).out b = 0) ∧
    Ev.mix (SAMPLES_TO_BYTES F) ∈ (callback F st buf rate rsp out0 a).events ∧
    (callback F st buf rate rsp out0 a).ret = PaRet.paContinue := by
  rw [callback_not_running F st buf rate rsp out0 a hrun]
  refine ⟨rfl, ?_, ?_, rfl⟩
  · intro b hb
    simp only [memset0]
    rw [if_pos (show 0 ≤ b ∧ b < 0 + SAMPLES_TO_BYTES F by omega)]
  · simp

/-- Witness for C9 at a concrete input: a stopped callback leaves the shared
state untouched. -/
theorem c9_witness :
    (callback 2 0 (fun _ => 9) 44100 true (fun _ => 7)
      { running := false, underrun := true, lgain := 1, rgain := 2,
        add_silence_ms := 3, skip_ahead_bytes := 8, elapsed_samples := 11,
        track_sample_rate := 48000, set_sample_rate := 0, max_rate := 48000,
        fifo := { rptr := 8, wptr := 0, size := 16 } }).audio =
      { running := false, underrun := true, lgain := 1, rgain := 2,
        add_silence_ms := 3, skip_ahead_bytes := 8, elapsed_samples := 11,
        track_sample_rate := 48000, set_sample_rate := 0, max_rate := 48000,
        fifo := { rptr := 8, wptr := 0, size := 16 } } :=
  (c9_stopped_still_mixes 2 0 (fun _ => 9) 44100 true (fun _ => 7)
      { running := false, underrun := true, lgain := 1, rgain := 2,
        add_silence_ms := 3, skip_ahead_bytes := 8, elapsed_samples := 11,
        track_sample_rate := 48000, set_sample_rate := 0, max_rate := 48000,
        fifo := { rptr := 8, wptr := 0, size := 16 } } rfl).1

/-- C7: when the callback copied audio, the track-start predicate holds and
the track's native rate differs from the stream rate, the callback only
records the native rate as the pending target rate and performs no stream
open, close or start itself; the stream-finished notifier initiates a reopen
only when the pending target rate is non-zero, by enqueuing a request on the
single-slot channel, and the worker executes it by reopening the stream. -/
theorem c7_rate_change_deferred (F st : Nat) (buf : Nat → Int) (rate : Nat)
    (out0 : Nat → Int) (a : DecodeAudio)
    (hrun : a.running = true) (hsil : a.add_silence_ms = 0)
    (hr : a.fifo.rptr < a.fifo.size) (hw : a.fifo.wptr < a.fifo.size)
    (h8r : 8 ∣ a.fifo.rptr) (h8s : 8 ∣ a.fifo.size) (h8w : 8 ∣ a.fifo.wptr)
    (h8k : 8 ∣ a.skip_ahead_bytes)
    (htr : a.track_sample_rate ≠ rate)
    (hbune : (if SAMPLES_TO_BYTES F < fifo_bytes_used a.fifo then SAMPLES_TO_BYTES F
      else fifo_bytes_used a.fifo) ≠ 0) :
    (callback F st buf rate true out0 a).audio.set_sample_rate = a.track_sample_rate ∧
    (∀ n, Ev.paOpen n ∉ (callback F st buf rate true out0 a).events) ∧
    Ev.paClose ∉ (callback F st buf rate true out0 a).events ∧
    Ev.paStart ∉ (callback F st buf rate true out0 a).events ∧
    (∀ q b, b.set_sample_rate = 0 → finished q b = (q, false)) ∧
    (∀ b : DecodeAudio, b.set_sample_rate ≠ 0 →
      finished { slot := none } b = ({ slot := some Req.reopenStream }, true)) ∧
    (∀ q s, (finished_handler q s).1 = { slot := none } ∧
      Ev.paOpen s.audio.set_sample_rate ∈ (finished_handler q s).2.2) := by
  rw [callback_run_eq F st buf rate true out0 a hrun hsil]
  obtain ⟨m1, m2, m3, m4, m5, m6, m7, m8, m9, m10, m11, m12, m13⟩ :=
    callbackMain_spec buf rate true out0 0 (SAMPLES_TO_BYTES F) (SAMPLES_TO_BYTES F) a
      _ _ _ rfl rfl rfl hr hw h8r h8s h8w h8k (dvd_mul_right 8 F) hbune
  refine ⟨?_, ?_, ?_, ?_, ?_, ?_, ?_⟩
  · rw [m8, if_pos ⟨rfl, htr⟩]
  · intro n
    rw [m12]
    simp
  · rw [m12]
    simp
  · rw [m12]
    simp
  · intro q b h0
    simp [finished, h0]
  · intro b hb
    simp [finished, hb, mqueue_write_request]
  · intro q s
    refine ⟨rfl, ?_⟩
    simp [finished_handler, decode_portaudio_openstream]

/-- Witness for C7 at a concrete input: a copying callback with track rate
48000 on a 44100 stream records 48000 as the pending target rate. -/
theorem c7_witness :
    (callback 1 0 (fun _ => 0) 44100 true (fun _ => 0)
      { running := true, underrun := false, lgain := 0, rgain := 0,
        add_silence_ms := 0, skip_ahead_bytes := 0, elapsed_samples := 0,
        track_sample_rate := 48000, set_sample_rate := 0, max_rate := 48000,
        fifo := { rptr := 0, wptr := 8, size := 16 } }).audio.set_sample_rate = 48000 :=
  (c7_rate_change_deferred 1 0 (fun _ => 0) 44100 (fun _ => 0)
      { running := true, underrun := false, lgain := 0, rgain := 0,
        add_silence_ms := 0, skip_ahead_bytes := 0, elapsed_samples := 0,
        track_sample_rate := 48000, set_sample_rate := 0, max_rate := 48000,
        fifo := { rptr := 0, wptr := 8, size := 16 } }
      rfl rfl (by decide) (by decide) ⟨0, rfl⟩ ⟨2, rfl⟩ ⟨1, rfl⟩ ⟨0, rfl⟩
      (by decide) (by decide)).1

/-- C8: at most one reconfiguration request is outstanding: when the
stream-finished notifier finds a pending target rate but the single-slot
channel already holds a request, the enqueue fails immediately and the new
request is dropped — the channel still holds the old request, unmerged and
not overwritten. -/
theorem c8_second_request_dropped (q : MQueue) (r : Req) (a : DecodeAudio)
    (h1 : a.set_sample_rate ≠ 0) (h2 : q.slot = some r) :
    finished q a = (q, false) ∧ (finished q a).1.slot = some r := by
  have hq : finished q a = (q, false) := by
    unfold finished mqueue_write_request
    rw [if_pos h1]
    split
    · rfl
    · rename_i heq
      rw [h2] at heq
      exact Option.noConfusion heq
  refine ⟨hq, ?_⟩
  rw [hq]
  exact h2

/-- Witness for C8 at a concrete input: with a request already queued and a
pending rate of 48000, the notifier drops the new request and the slot keeps
the old one. -/
theorem c8_witness :
    finished { slot := some Req.reopenStream }
      { running := false, underrun := false, lgain := 0, rgain := 0,
        add_silence_ms := 0, skip_ahead_bytes := 0, elapsed_samples := 0,
        track_sample_rate := 48000, set_sample_rate := 48000, max_rate := 48000,
        fifo := { rptr := 0, wptr := 0, size := 16 } } =
      ({ slot := some Req.reopenStream }, false) :=
  (c8_second_request_dropped { slot := some Req.reopenStream } Req.reopenStream
      { running := false, underrun := false, lgain := 0, rgain := 0,
        add_silence_ms := 0, skip_ahead_bytes := 0, elapsed_samples := 0,
        track_sample_rate := 48000, set_sample_rate := 48000, max_rate := 48000,
        fifo := { rptr := 0, wptr := 0, size := 16 } }
      (by decide) rfl).1

/-- C10: every stream open reads the pending target rate under the lock,
resets it to 0, opens the stream at exactly the value read (also when that
value is 0) and records it as the current stream rate; immediately after any
open — from start, stop or init — the pending target rate is 0, and stop
reopens at the fixed default 44100. -/
theorem c10_openstream_consumes_pending (s : AudioSys) :
    (decode_portaudio_openstream s).1.audio.set_sample_rate = 0 ∧
    (decode_portaudio_openstream s).1.stream_sample_rate = s.audio.set_sample_rate ∧
    Ev.paOpen s.audio.set_sample_rate ∈ (decode_portaudio_openstream s).2 ∧
    (decode_portaudio_start s).1.audio.set_sample_rate = 0 ∧
    (decode_portaudio_start s).1.stream_sample_rate = s.audio.set_sample_rate ∧
    (decode_portaudio_stop s).1.audio.set_sample_rate = 0 ∧
    (decode_portaudio_stop s).1.stream_sample_rate = 44100 ∧
    (∀ a0 : DecodeAudio, (decode_portaudio_init a0).1.audio.set_sample_rate = 0 ∧
      (decode_portaudio_init a0).1.stream_sample_rate = 44100) := by
  refine ⟨rfl, rfl, ?_, rfl, rfl, rfl, rfl, fun a0 => ⟨rfl, rfl⟩⟩
  simp [decode_portaudio_openstream]
